import Mathlib

/-!
Shallow embedding of the `hass-pik-intercom` integration
(`custom_components/pik_intercom/{api,entity,_base}.py`) and proofs about it.

Python dictionaries are modelled as insertion-ordered association lists
(`List (Int × α)`), Python `None`/optional JSON values as `Option`,
exceptions as `Except`, timestamps (`datetime`) as integers (only their
total order matters), and `float` results of parsing plain decimal
literals as exact rationals.  Coroutines are modelled by explicit state
threading; the single-threaded event loop means control only changes
hands at `await` points.
-/

namespace PikSpec

/-- Python `dict` lookup-or-insert followed by field assignment collapses to
an upsert: update the value in place if the key exists (preserving
insertion order), otherwise append the new binding at the end. -/
def dupsert {α : Type} (m : List (Int × α)) (k : Int) (v : α) : List (Int × α) :=
  match m with
  | [] => [(k, v)]
  | (k0, v0) :: rest => if k0 = k then (k0, v) :: rest else (k0, v0) :: dupsert rest k v

/-- Python cleanup loop `for key in d.keys() - found: del d[key]`:
keep exactly the entries whose key was seen in `found`. -/
def dkeepFound {α : Type} (m : List (Int × α)) (found : List Int) : List (Int × α) :=
  m.filter (fun p => found.contains p.1)

/-! ## Error model

`api.py` defines a single exception class `PikIntercomException`; the
built-in Python `TypeError` and `ValueError` also occur (meter value
conversion). -/

/-- Python exceptions relevant to the embedded code paths. -/
inductive PyError where
  | pikIntercomException (msg : String)
  | typeError (msg : String)
  | valueError (msg : String)
deriving DecidableEq, Repr

/-! ## Meter value parsing (`PikIotMeter._convert_value` and friends)

Source (`api.py` lines 1114-1126):
the static method raises `TypeError` when the value is `None`, otherwise
computes `float(str(value).rpartition(" ")[0].replace(" ", ""))`; the
two numeric properties guard with Python truthiness
(`_convert_value(value) if (value := self.current_value) else None`). -/

/-- Characters of the substring strictly before the last space, or `none`
when the string has no space (Python `rpartition(" ")[0]` yields `""` then). -/
def beforeLastSpace : List Char → Option (List Char)
  | [] => none
  | c :: rest =>
    match beforeLastSpace rest with
    | some l => some (c :: l)
    | none => if c = ' ' then some [] else none

/-- Python `s.rpartition(" ")[0]`: everything before the last space,
or the empty string when there is no space. -/
def rpartitionSpaceFst (s : String) : String :=
  match beforeLastSpace s.data with
  | some l => ⟨l⟩
  | none => ""

/-- Python `s.replace(" ", "")`: drop every space character. -/
def removeSpaces (s : String) : String :=
  ⟨s.data.filter (fun c => c ≠ ' ')⟩

/-- Decimal digit sequence as a natural number; `none` when empty or any
character is not a digit. -/
def parseNatDigits (l : List Char) : Option Nat :=
  if l.isEmpty then none
  else if l.all Char.isDigit then
    some (l.foldl (fun n c => n * 10 + (c.toNat - 48)) 0)
  else none

/-- Python `float(s)` on plain decimal literals (optional sign, digits,
optional fractional part), returning the exact rational value;
`ValueError` on anything else.  Exponents, infinities and `nan` never
arise from the meter payloads modelled here. -/
def pyFloat (s : String) : Except PyError ℚ :=
  let (sign, body) : ℤ × List Char :=
    match s.data with
    | '-' :: rest => (-1, rest)
    | '+' :: rest => (1, rest)
    | l => (1, l)
  match (List.splitOn '.' body) with
  | [intPart] =>
    match parseNatDigits intPart with
    | some n => .ok ((sign * n : ℤ) : ℚ)
    | none => .error (.valueError "could not convert string to float")
  | [intPart, fracPart] =>
    if intPart.isEmpty ∧ fracPart.isEmpty then
      .error (.valueError "could not convert string to float")
    else
      match parseNatDigits (intPart ++ fracPart), fracPart.length with
      | some n, k => .ok (((sign * n : ℤ) : ℚ) / ((10 : ℚ) ^ k))
      | none, _ => .error (.valueError "could not convert string to float")
  | _ => .error (.valueError "could not convert string to float")

/-- Embedding of `PikIotMeter._convert_value` (`api.py` 1114-1118): `TypeError` on
`None`, otherwise float conversion of the reading with the trailing unit
suffix stripped. -/
def convert_value (value : Option String) : Except PyError ℚ :=
  match value with
  | none => .error (.typeError "cannot convert NoneType to float")
  | some v => pyFloat (removeSpaces (rpartitionSpaceFst v))

/-- Embedding of `PikIotMeter.current_value_numeric` (`api.py` 1120-1122): convert when
the stored reading is truthy (non-`None`, non-empty), else `None`;
a conversion error propagates. -/
def current_value_numeric (current_value : Option String) : Except PyError (Option ℚ) :=
  match current_value with
  | none => .ok none
  | some v => if v = "" then .ok none else (convert_value (some v)).map some

/-- Embedding of `PikIotMeter.month_value_numeric` (`api.py` 1124-1126), same shape as
`current_value_numeric` over the month reading. -/
def month_value_numeric (month_value : Option String) : Except PyError (Option ℚ) :=
  match month_value with
  | none => .ok none
  | some v => if v = "" then .ok none else (convert_value (some v)).map some

/-- True exactly when the computation failed with a `ValueError`. -/
def raisesValueError {α : Type} (r : Except PyError α) : Bool :=
  match r with
  | .error (.valueError _) => true
  | _ => false

/-! ## Unlock operations (`api.py` 735-768)

`async_unlock_property_intercom` inspects the response body: unless the
`request` field is exactly `True` it raises; `async_unlock_iot_relay`
performs no body inspection at all (the source carries a
`@TODO: rule out correct response` comment). -/

/-- Vendor response body for an unlock command; `request` holds the value
of the `"request"` key (`none` when absent or non-boolean — any such value
fails the `is not True` test in the source exactly like `false`). -/
structure UnlockResponseData where
  request : Option Bool := none
deriving DecidableEq, Repr

/-- Embedding of `PikIntercomAPI.async_unlock_property_intercom` (`api.py` 735-752)
after a transport-successful POST: raise unless the body confirms. -/
def async_unlock_property_intercom (resp_data : UnlockResponseData) : Except PyError Unit :=
  if resp_data.request ≠ some true then
    .error (.pikIntercomException "Timed out unlocking intercom")
  else
    .ok ()

/-- Embedding of `PikIntercomAPI.async_unlock_iot_relay` (`api.py` 754-768) after a
transport-successful POST: the body is never inspected. -/
def async_unlock_iot_relay (_resp_data : UnlockResponseData) : Except PyError Unit :=
  .ok ()

/-! ## Theorems for unlock confirmation (claim C5) -/

/-- C5 counterexample: the claim states that every unlock operation raises
when the vendor body does not explicitly confirm success, but
`async_unlock_iot_relay` returns normally on a body that carries no
success flag at all — no confirmation check exists in the source. -/
theorem C5_counterexample :
    async_unlock_iot_relay { request := none } = Except.ok () := rfl

/-- C5 (amended): `async_unlock_property_intercom` raises
`PikIntercomException` exactly when the response body's `request` field is
not the boolean `True`, and returns normally otherwise;
`async_unlock_iot_relay` never inspects the body and always returns
normally once the transport-level request succeeded.  (No dedicated
`UnlockError` class exists; the single `PikIntercomException` is raised.) -/
theorem C5_unlock_behaviour (resp : UnlockResponseData) :
    (async_unlock_property_intercom resp = Except.ok () ↔ resp.request = some true)
    ∧ (async_unlock_property_intercom resp
        = Except.error (.pikIntercomException "Timed out unlocking intercom")
        ↔ resp.request ≠ some true)
    ∧ async_unlock_iot_relay resp = Except.ok () := by
  by_cases h : resp.request = some true <;>
    simp [async_unlock_property_intercom, async_unlock_iot_relay, h]

/-- Witness for the unlock theorem at a concrete input: a body carrying
`request: true` lets the property-intercom unlock return normally, and
the IoT relay unlock returns normally as well. -/
theorem C5_unlock_behaviour_witness :
    async_unlock_property_intercom { request := some true } = Except.ok ()
    ∧ async_unlock_iot_relay { request := some true } = Except.ok () :=
  ⟨(C5_unlock_behaviour { request := some true }).1.mpr rfl,
   (C5_unlock_behaviour { request := some true }).2.2⟩

/-! ## Theorems for meter reading parsing (claim C7) -/

/-- C7 counterexample: the claim states that the underlying conversion of
an absent value fails with `ValueError`; in the source
`_convert_value(None)` raises `TypeError("cannot convert NoneType to
float")`, not `ValueError`. -/
theorem C7_counterexample :
    raisesValueError (convert_value none) = false
    ∧ convert_value none
        = Except.error (.typeError "cannot convert NoneType to float") :=
  ⟨rfl, rfl⟩

/-- C7 (amended): `"123.4 m3"` parses through the numeric properties to
the number `123.4`; a reading of `None` yields `None` without raising;
and the underlying conversion of an absent value fails with `TypeError`
(not `ValueError`). -/
theorem C7_meter_parsing :
    current_value_numeric (some "123.4 m3") = Except.ok (some ((617 : ℚ) / 5))
    ∧ month_value_numeric (some "123.4 m3") = Except.ok (some ((617 : ℚ) / 5))
    ∧ current_value_numeric none = Except.ok none
    ∧ month_value_numeric none = Except.ok none
    ∧ convert_value none
        = Except.error (.typeError "cannot convert NoneType to float") := by
  have hne : ("123.4 m3" = "") = False := by decide
  have h2 : convert_value (some "123.4 m3")
      = Except.ok ((((1 : ℤ) * (1234 : ℕ) : ℤ) : ℚ) / (10 : ℚ) ^ (1 : ℕ)) := rfl
  refine ⟨?_, ?_, rfl, rfl, rfl⟩ <;>
  · simp [current_value_numeric, month_value_numeric, hne, h2, Except.map]
    norm_num

/-! ## Coordinator retry loop (`entity.py` 122-135)

`BasePikUpdateCoordinator._async_update_data` runs
`for i in range(self.update_retries)`: each iteration awaits the fetch;
a `CancelledError` re-raises immediately; any other exception either
raises `UpdateFailed` (when `i + 1 == self.update_retries`) or sleeps two
seconds and retries.  Falling off the loop returns `None` implicitly. -/

/-- Outcome of one invocation of `_async_update_internal`. -/
inductive FetchOutcome (α : Type) where
  | success (value : α)
  | failure (exc : String)
  | cancelled
deriving DecidableEq, Repr

/-- Observable result of `_async_update_data`: a returned value, the
implicit `None` return when the loop body never runs, a raised
`UpdateFailed` (message plus the wrapped cause), or a propagated
cancellation. -/
inductive UpdateResult (α : Type) where
  | value (v : α)
  | implicitNone
  | updateFailed (msg : String) (cause : String)
  | cancelledRaised
deriving DecidableEq, Repr

/-- The retry loop over the remaining indices of `range(update_retries)`.
Returns the result, the number of fetch invocations performed, and the
list of sleep durations (seconds) executed between attempts. -/
def runAttempts {α : Type} (fetch : Nat → FetchOutcome α) (retries : Nat) :
    List Nat → UpdateResult α × Nat × List Nat
  | [] => (.implicitNone, 0, [])
  | i :: rest =>
    match fetch i with
    | .success v => (.value v, 1, [])
    | .cancelled => (.cancelledRaised, 1, [])
    | .failure exc =>
      if i + 1 = retries then
        (.updateFailed ("Unable to fetch data: " ++ exc) exc, 1, [])
      else
        let r := runAttempts fetch retries rest
        (r.1, r.2.1 + 1, 2 :: r.2.2)

/-- Embedding of `BasePikUpdateCoordinator._async_update_data` with `update_retries`
attempts, where `fetch i` is what the `i`-th invocation of
`_async_update_internal` does. -/
def async_update_data {α : Type} (fetch : Nat → FetchOutcome α) (retries : Nat) :
    UpdateResult α × Nat × List Nat :=
  runAttempts fetch retries (List.range retries)

/-- Invocation count of the retry loop is bounded by the number of
remaining loop indices. -/
theorem runAttempts_count_le {α : Type} (fetch : Nat → FetchOutcome α)
    (retries : Nat) (l : List Nat) :
    (runAttempts fetch retries l).2.1 ≤ l.length := by
  induction l with
  | nil => simp [runAttempts]
  | cons i rest ih =>
      simp only [runAttempts, List.length_cons]
      cases fetch i with
      | success v => simp
      | cancelled => simp
      | failure exc =>
          by_cases h : i + 1 = retries <;> simp [h]
          omega

/-! ## Theorems for coordinator retry (claims C3 and C10) -/

/-- C3: with the default retry count 3, a fetch that fails twice and
succeeds on the third attempt makes `_async_update_data` return the
success, invoking the fetch exactly 3 times with a fixed 2-second sleep
between consecutive invocations; and a fetch failing all 3 times makes it
raise `UpdateFailed` wrapping the last error. -/
theorem C3_coordinator_retry {α : Type} (e1 e2 e3 : String) (v : α) :
    async_update_data
        (fun i => if i = 0 then .failure e1 else if i = 1 then .failure e2
                  else .success v) 3
      = (.value v, 3, [2, 2])
    ∧ async_update_data
        ((fun i => if i = 0 then .failure e1 else if i = 1 then .failure e2
                   else .failure e3) : Nat → FetchOutcome α) 3
      = (.updateFailed ("Unable to fetch data: " ++ e3) e3, 3, [2, 2]) :=
  ⟨rfl, rfl⟩

/-- C10: constructed with `update_retries = 0` the loop body never runs:
`_async_update_data` returns `None` without invoking the fetch and
without raising; and in general at most `n` invocations happen for
`update_retries = n`. -/
theorem C10_zero_and_bounded_retries {α : Type} (fetch : Nat → FetchOutcome α) (n : Nat) :
    async_update_data fetch 0 = (.implicitNone, 0, [])
    ∧ (async_update_data fetch n).2.1 ≤ n := by
  refine ⟨rfl, ?_⟩
  have h := runAttempts_count_le fetch n (List.range n)
  simpa [async_update_data] using h

/-! ## Concurrent-fetch deduplication (`_base.py` 172-212)

`BasePikIntercomPropertyDeviceEntity.async_update_data` keeps a
class-level mapping `(config_entry_id, property_id) → asyncio.Future`.
A caller that finds the key present awaits the stored future; otherwise
it creates and stores a fresh future, awaits the underlying API fetch,
settles the future with the fetch's result or exception, and removes the
mapping entry in a `finally` block.  Under the single-threaded event loop
a coroutine only yields control at `await`, so each code segment between
awaits runs atomically; futures are Python objects, so a waiter holds a
reference that survives removal of the map entry. -/

/-- State of an `asyncio.Future` object. -/
inductive FutState where
  | pending
  | resolvedOk
  | resolvedErr (e : String)
deriving DecidableEq, Repr

/-- Event-loop-visible shared state: the class-level future map (key to
future object id), the store of future objects by identity, the next
fresh object id, and how many underlying API fetches have been issued. -/
structure DedupWorld where
  futures : List ((String × Int) × Nat)
  futStore : List (Nat × FutState)
  nextFut : Nat
  fetchCalls : Nat
deriving DecidableEq, Repr

/-- Continuation of a caller suspended at its first `await` inside
`async_update_data`. -/
inductive CallerCont where
  | awaitingFetch (key : String × Int) (futId : Nat)
  | awaitingFuture (futId : Nat)
deriving DecidableEq, Repr

/-- Update the state of the future object `futId`. -/
def setFut (store : List (Nat × FutState)) (futId : Nat) (s : FutState) :
    List (Nat × FutState) :=
  store.map (fun p => if p.1 = futId then (p.1, s) else p)

/-- Python `del futures[future_key]`. -/
def delKey (m : List ((String × Int) × Nat)) (k : String × Int) :
    List ((String × Int) × Nat) :=
  m.filter (fun p => p.1 ≠ k)

/-- The atomic segment of `async_update_data` from entry to its first
`await`: either the key is present and the caller awaits the stored
future, or a fresh pending future is stored and the underlying fetch is
issued (`await api_object.async_update_property_intercoms(...)`). -/
def callerEnter (key : String × Int) (w : DedupWorld) : DedupWorld × CallerCont :=
  match w.futures.lookup key with
  | some futId => (w, .awaitingFuture futId)
  | none =>
    let futId := w.nextFut
    ({ futures := w.futures ++ [(key, futId)],
       futStore := w.futStore ++ [(futId, .pending)],
       nextFut := futId + 1,
       fetchCalls := w.fetchCalls + 1 }, .awaitingFetch key futId)

/-- The atomic segment after the fetch settles, for the caller that issued
it: on an exception, `future.set_exception(error)` then re-raise; on
success, `future.set_result(None)`; the `finally` block deletes the map
entry in both paths.  The returned value is the caller's observable
outcome (`ok ()` for the implicit `None` return, `error e` for a raise). -/
def resumeFetcher (key : String × Int) (futId : Nat) (outcome : Except String Unit)
    (w : DedupWorld) : DedupWorld × Except String Unit :=
  match outcome with
  | .error e =>
    ({ w with futStore := setFut w.futStore futId (.resolvedErr e),
              futures := delKey w.futures key }, .error e)
  | .ok _ =>
    ({ w with futStore := setFut w.futStore futId .resolvedOk,
              futures := delKey w.futures key }, .ok ())

/-- Resumption of a caller awaiting a future object once that object has
been settled: an awaited resolved future returns its result or re-raises
its exception. -/
def resumeWaiter (futId : Nat) (w : DedupWorld) : Except String Unit :=
  match w.futStore.lookup futId with
  | some .resolvedOk => .ok ()
  | some (.resolvedErr e) => .error e
  | _ => .error "await on a pending future never resumes here"

/-- The claim's schedule: caller A enters on an empty world and starts the
fetch; caller B enters for the same key while that fetch is in flight (any
moment in that window observes the same map state); the fetch settles with
`outcome`; A resumes and settles the shared future; B then resumes from
the future object it captured.  Returns the final world and both callers'
observable outcomes. -/
def runDedupSchedule (key : String × Int) (outcome : Except String Unit) :
    DedupWorld × Except String Unit × Except String Unit :=
  let w0 : DedupWorld := { futures := [], futStore := [], nextFut := 0, fetchCalls := 0 }
  let (w1, contA) := callerEnter key w0
  let (w2, contB) := callerEnter key w1
  match contA, contB with
  | .awaitingFetch k fid, .awaitingFuture fidB =>
    let (w3, resA) := resumeFetcher k fid outcome w2
    (w3, resA, resumeWaiter fidB w3)
  | _, _ => (w2, .error "unmodeled schedule", .error "unmodeled schedule")

/-! ## Theorem for concurrent-fetch dedup (claim C4) -/

/-- C4: for two concurrent update requests for the same
(config-entry, resource-id) key, with the second arriving while the first
caller's fetch is in flight, exactly one underlying fetch is issued, both
callers observe the same outcome (the fetch's own success or exception),
and the future-map entry is gone once the fetch settles. -/
theorem C4_dedup (outcome : Except String Unit) :
    (runDedupSchedule ("entry", 1) outcome).1.fetchCalls = 1
    ∧ (runDedupSchedule ("entry", 1) outcome).2.1
        = (runDedupSchedule ("entry", 1) outcome).2.2
    ∧ (runDedupSchedule ("entry", 1) outcome).2.1 = outcome.map (fun _ => ())
    ∧ (runDedupSchedule ("entry", 1) outcome).1.futures.lookup ("entry", 1) = none := by
  cases outcome with
  | ok u => cases u; exact ⟨rfl, rfl, rfl, rfl⟩
  | error e => exact ⟨rfl, rfl, rfl, rfl⟩

/-! ## Collection records and page payloads (`api.py`)

Pagination walks request page 1, 2, ... until a page comes back empty;
the remote service is modelled as the list of its non-empty responses
(`pages`), every page past the end of the list being empty.  Incoming
JSON objects are modelled with the `int(data["id"])` conversion already
attempted: `id = none` stands for a record whose `"id"` entry is missing
or fails integer conversion.  Falsy-to-`None` coercions
(`data.get(k) or None`) are modelled by `Option` fields. -/

/-- Embedding of `PikPropertyDevice` dataclass fields assigned by
`async_update_property_intercoms` (`api.py` 1056-1076). -/
structure PikPropertyDevice where
  id : Int
  property_id : Option Int := none
  scheme_id : Option Int := none
  building_id : Option Int := none
  kind : Option String := none
  device_category : Option String := none
  mode : Option String := none
  name : Option String := none
  human_name : Option String := none
  renamed_name : Option String := none
  relays : Option (List (String × String)) := none
  checkpoint_relay_index : Option Int := none
  entrance : Option Int := none
  can_address : Option String := none
  face_detection : Option Bool := none
  video : Option (List (String × String)) := none
  photo_url : Option String := none
  proxy : Option String := none
  ex_user : Option String := none
deriving DecidableEq, Repr

/-- Embedding of `sip_account` sub-object of an intercom payload. -/
structure SipAccountData where
  ex_user : Option String := none
  proxy : Option String := none
deriving DecidableEq, Repr

/-- One element of a property-intercoms page. -/
structure IntercomData where
  id : Option Int
  property_id : Option Int := none
  scheme_id : Option Int := none
  building_id : Option Int := none
  kind : Option String := none
  device_category : Option String := none
  mode : Option String := none
  name : Option String := none
  human_name : Option String := none
  renamed_name : Option String := none
  relays : Option (List (String × String)) := none
  checkpoint_relay_index : Option Int := none
  entrance : Option Int := none
  can_address : Option String := none
  face_detection : Option Bool := none
  video : Option (List (String × String)) := none
  photo_url : Option String := none
  sip_account : Option SipAccountData := none
deriving DecidableEq, Repr

/-- Field assignment block of `async_update_property_intercoms`
(`api.py` 501-524) applied to an existing-or-fresh record. -/
def applyIntercomData (d : IntercomData) (dev : PikPropertyDevice) : PikPropertyDevice :=
  let dev := { dev with
    property_id := d.property_id, scheme_id := d.scheme_id,
    building_id := d.building_id, kind := d.kind,
    device_category := d.device_category, mode := d.mode,
    name := d.name, human_name := d.human_name,
    renamed_name := d.renamed_name,
    checkpoint_relay_index := d.checkpoint_relay_index,
    relays := d.relays, entrance := d.entrance,
    can_address := d.can_address, face_detection := d.face_detection,
    video := d.video, photo_url := d.photo_url }
  match d.sip_account with
  | some sa => { dev with ex_user := sa.ex_user, proxy := sa.proxy }
  | none => dev

/-- State touched by `async_update_property_intercoms`: the shared
`self._devices` mapping, the local `found_intercoms` set, and the number
of page requests issued. -/
structure IcmState where
  devices : List (Int × PikPropertyDevice)
  found_intercoms : List Int
  requests : Nat
deriving DecidableEq, Repr

/-- Body of the record loop of `async_update_property_intercoms`
(`api.py` 487-524): a record whose id fails integer conversion is skipped
(`continue`); otherwise the id is added to `found_intercoms` and the
record is fetched-or-created and its fields assigned. -/
def processIntercomRecord (st : IcmState) (d : IntercomData) : IcmState :=
  match d.id with
  | none => st
  | some intercom_id =>
    let dev := match st.devices.lookup intercom_id with
      | some dev => dev
      | none => { id := intercom_id }
    { st with
      found_intercoms := st.found_intercoms.insert intercom_id,
      devices := dupsert st.devices intercom_id (applyIntercomData d dev) }

/-- Page walk of `async_update_property_intercoms` (`api.py` 473-526):
fetch successive pages, breaking on the first empty one. -/
def icmIntercomsWalk : List (List IntercomData) → IcmState → IcmState
  | [], st => { st with requests := st.requests + 1 }
  | page :: rest, st =>
    let st := { st with requests := st.requests + 1 }
    if page.isEmpty then st
    else icmIntercomsWalk rest (page.foldl processIntercomRecord st)

/-- Embedding of `PikIntercomAPI.async_update_property_intercoms` (`api.py` 466-526).
The source performs the page walk only: `found_intercoms` is collected
but no cleanup of ids absent from the walk ever happens. -/
def async_update_property_intercoms (pages : List (List IntercomData))
    (st : IcmState) : IcmState :=
  icmIntercomsWalk pages st

/-- Embedding of `PikIotCamera` dataclass fields assigned by `async_update_iot_cameras`
(`api.py` 1129-1173). -/
structure PikIotCamera where
  id : Int
  name : Option String := none
  live_snapshot_url : Option String := none
  rtsp_url : Option String := none
  geo_unit_short_name : Option String := none
deriving DecidableEq, Repr

/-- Embedding of `PikIotMeter` dataclass fields assigned by `async_update_iot_meters`
(`api.py` 1103-1112). -/
structure PikIotMeter where
  id : Int
  serial : Option String := none
  kind : Option String := none
  pipe_identifier : Option Int := none
  status : Option String := none
  title : Option String := none
  current_value : Option String := none
  month_value : Option String := none
  geo_unit_short_name : Option String := none
deriving DecidableEq, Repr

/-- One element of an IoT cameras page. -/
structure CameraData where
  id : Option Int
  name : Option String := none
  rtsp_url : Option String := none
  live_snapshot_url : Option String := none
  geo_unit_short_name : Option String := none
deriving DecidableEq, Repr

/-- State touched by `async_update_iot_cameras`: both `self._iot_cameras`
and `self._iot_meters` (the local variable `cameras` in the source is
bound to `self._iot_meters`, `api.py` line 630), the local
`found_cameras` set, and the request count. -/
structure IotCamState where
  iot_cameras : List (Int × PikIotCamera)
  iot_meters : List (Int × PikIotMeter)
  found_cameras : List Int
  requests : Nat
deriving DecidableEq, Repr

/-- Record loop of one IoT-cameras page (`api.py` 649-667).  A record
whose id fails integer conversion executes `return` — aborting the whole
update, remaining records and pages included — which the `Bool` flag
reports (`true` = early return).  Upserts target `self._iot_cameras`. -/
def processCameraPage (st : IotCamState) : List CameraData → Bool × IotCamState
  | [] => (false, st)
  | d :: rest =>
    match d.id with
    | none => (true, st)
    | some camera_id =>
      let cam : PikIotCamera := match st.iot_cameras.lookup camera_id with
        | some c => c
        | none => { id := camera_id }
      let cam := { cam with
        name := d.name, rtsp_url := d.rtsp_url,
        live_snapshot_url := d.live_snapshot_url,
        geo_unit_short_name := d.geo_unit_short_name }
      processCameraPage
        { st with
          found_cameras := st.found_cameras.insert camera_id,
          iot_cameras := dupsert st.iot_cameras camera_id cam } rest

/-- Page walk of `async_update_iot_cameras` (`api.py` 633-669). -/
def iotCamerasWalk : List (List CameraData) → IotCamState → Bool × IotCamState
  | [], st => (false, { st with requests := st.requests + 1 })
  | page :: rest, st =>
    let st := { st with requests := st.requests + 1 }
    if page.isEmpty then (false, st)
    else
      match processCameraPage st page with
      | (true, st) => (true, st)
      | (false, st) => iotCamerasWalk rest st

/-- Embedding of `PikIntercomAPI.async_update_iot_cameras` (`api.py` 625-673).  After a
walk that was not aborted, the cleanup loop deletes stale keys from the
local variable `cameras` — which the source bound to `self._iot_meters`;
`self._iot_cameras` is never cleaned. -/
def async_update_iot_cameras (pages : List (List CameraData))
    (st : IotCamState) : IotCamState :=
  match iotCamerasWalk pages st with
  | (true, st) => st
  | (false, st) =>
    { st with iot_meters := dkeepFound st.iot_meters st.found_cameras }

/-- One element of an IoT meters page; `pipe_identifier` carries the
result of the guarded `int(...)` conversion (`api.py` 715-718). -/
structure MeterData where
  id : Option Int
  serial : Option String := none
  kind : Option String := none
  pipe_identifier : Option Int := none
  status : Option String := none
  title : Option String := none
  current_value : Option String := none
  month_value : Option String := none
  geo_unit_short_name : Option String := none
deriving DecidableEq, Repr

/-- State touched by `async_update_iot_meters`. -/
structure IotMeterState where
  iot_meters : List (Int × PikIotMeter)
  found_meters : List Int
  requests : Nat
deriving DecidableEq, Repr

/-- Record loop body of `async_update_iot_meters` (`api.py` 699-727):
a record whose id fails integer conversion is skipped (`continue`). -/
def processMeterRecord (st : IotMeterState) (d : MeterData) : IotMeterState :=
  match d.id with
  | none => st
  | some meter_id =>
    let meter : PikIotMeter := match st.iot_meters.lookup meter_id with
      | some m => m
      | none => { id := meter_id }
    let meter := { meter with
      serial := d.serial, kind := d.kind,
      pipe_identifier := d.pipe_identifier, status := d.status,
      title := d.title, current_value := d.current_value,
      month_value := d.month_value,
      geo_unit_short_name := d.geo_unit_short_name }
    { st with
      found_meters := st.found_meters.insert meter_id,
      iot_meters := dupsert st.iot_meters meter_id meter }

/-- Page walk of `async_update_iot_meters` (`api.py` 683-729). -/
def iotMetersWalk : List (List MeterData) → IotMeterState → IotMeterState
  | [], st => { st with requests := st.requests + 1 }
  | page :: rest, st =>
    let st := { st with requests := st.requests + 1 }
    if page.isEmpty then st
    else iotMetersWalk rest (page.foldl processMeterRecord st)

/-- Embedding of `PikIntercomAPI.async_update_iot_meters` (`api.py` 675-733): page walk
followed by deletion of ids absent from the walk. -/
def async_update_iot_meters (pages : List (List MeterData))
    (st : IotMeterState) : IotMeterState :=
  let st := iotMetersWalk pages st
  { st with iot_meters := dkeepFound st.iot_meters st.found_meters }

/-! ## Theorems for the set-difference invariant (claim C1)

The invariant does hold for `async_update_iot_meters` (and, by the same
cleanup block, `async_update_iot_intercoms`); it fails for
`async_update_property_intercoms`, whose `found_intercoms` set is
collected but never used for cleanup, and for `async_update_iot_cameras`,
whose cleanup deletes stale keys from `self._iot_meters` (the misbound
local `cameras`) while `self._iot_cameras` keeps stale entries forever. -/

/-- Walk result for one prior property intercom (id 1) and a fresh walk
seeing only id 2. -/
def staleIcmRun : IcmState :=
  async_update_property_intercoms [[{ id := some 2 }]]
    { devices := [(1, { id := 1 })], found_intercoms := [], requests := 0 }

/-- Walk result for one prior IoT camera (id 1), one prior IoT meter
(id 5), and a fresh camera walk seeing only camera id 2. -/
def staleCamRun : IotCamState :=
  async_update_iot_cameras [[{ id := some 2, name := some "Cam2" }]]
    { iot_cameras := [(1, { id := 1 })], iot_meters := [(5, { id := 5 })],
      found_cameras := [], requests := 0 }

/-- Walk result for one prior IoT meter (id 1) and a fresh meter walk
seeing only id 2. -/
def staleMeterRun : IotMeterState :=
  async_update_iot_meters [[{ id := some 2 }]]
    { iot_meters := [(1, { id := 1 })], found_meters := [], requests := 0 }

/-- C1 evaluated at the failing inputs: after a successful property
intercoms walk that saw only id 2, the stale record id 1 is still in the
devices mapping (no cleanup exists); after a successful IoT cameras walk
that saw only camera id 2, the stale camera id 1 is still in the cameras
mapping, while the live meter id 5 was deleted from the meters mapping by
the cameras cleanup; the meters update itself does satisfy the claimed
set-difference invariant at the analogous input. -/
theorem C1_code_evaluation :
    (staleIcmRun.devices.lookup 1).isSome = true
    ∧ staleIcmRun.found_intercoms = [2]
    ∧ (staleCamRun.iot_cameras.lookup 1).isSome = true
    ∧ staleCamRun.found_cameras = [2]
    ∧ staleCamRun.iot_meters = []
    ∧ staleMeterRun.iot_meters.lookup 1 = none
    ∧ (staleMeterRun.iot_meters.lookup 2).isSome = true :=
  ⟨rfl, rfl, rfl, rfl, rfl, rfl, rfl⟩

/-! ## Theorems for bad-id skipping (claim C8) -/

/-- IoT cameras walk whose first page starts with a record whose id fails
integer conversion, followed by a good record (camera 2) and a further
page (camera 3); a meter with id 5 is cached. -/
def badIdCamRun : IotCamState :=
  async_update_iot_cameras [[{ id := none }, { id := some 2 }], [{ id := some 3 }]]
    { iot_cameras := [], iot_meters := [(5, { id := 5 })],
      found_cameras := [], requests := 0 }

/-- IoT meters walk over the analogous input. -/
def badIdMeterRun : IotMeterState :=
  async_update_iot_meters [[{ id := none }, { id := some 2 }], [{ id := some 3 }]]
    { iot_meters := [(5, { id := 5 })], found_meters := [], requests := 0 }

/-- C8 evaluated at the failing input: in `async_update_iot_cameras` a
record whose id fails integer conversion executes `return` instead of
`continue` — the whole update aborts silently: the remaining record of
the page (camera 2) and the whole next page (camera 3) are never
upserted, only one page request was issued, and the cleanup never runs
(the cached meter survives).  The sibling `async_update_iot_meters` at
the analogous input skips the bad record and processes everything else,
as the claim states. -/
theorem C8_code_evaluation :
    badIdCamRun.iot_cameras = []
    ∧ badIdCamRun.requests = 1
    ∧ (badIdCamRun.iot_meters.lookup 5).isSome = true
    ∧ (badIdMeterRun.iot_meters.lookup 2).isSome = true
    ∧ (badIdMeterRun.iot_meters.lookup 3).isSome = true
    ∧ badIdMeterRun.iot_meters.lookup 5 = none
    ∧ badIdMeterRun.requests = 3 :=
  ⟨rfl, rfl, rfl, rfl, rfl, rfl, rfl⟩

/-! ## Entity availability (`_base.py` 265-271, 446-451; `entity.py` 517-529)

Python object identity (`is`) is modelled by tagging each live record
with an allocation id `oid`; two references are identical exactly when
their `oid`s agree, independent of field contents. -/

/-- A reference to a live Python record: object identity plus the record
value. -/
structure Ref (α : Type) where
  oid : Nat
  data : α
deriving DecidableEq, Repr

/-- Python `a is b` for record references. -/
def pyIs {α : Type} (a b : Ref α) : Bool :=
  a.oid == b.oid

/-- Embedding of `BasePikIntercomPropertyDeviceEntity.available` (`_base.py` 265-271):
walk `self.api_object.devices.values()` and return whether any entry `is`
the record the entity holds. -/
def propertyDeviceEntityAvailable (mine : Ref PikPropertyDevice)
    (devices : List (Int × Ref PikPropertyDevice)) : Bool :=
  devices.any (fun p => pyIs p.2 mine)

/-- Embedding of `PikIotRelay` dataclass fields relevant to the relay entity. -/
structure PikIotRelay where
  id : Int
  name : Option String := none
  rtsp_url : Option String := none
  live_snapshot_url : Option String := none
  geo_unit_id : Option Int := none
  geo_unit_full_name : Option String := none
  custom_name : Option String := none
  is_favorite : Bool := false
  is_hidden : Bool := false
  geo_unit_short_name : Option String := none
deriving DecidableEq, Repr

/-- Embedding of `BasePikIntercomIotRelayEntity.available` (`_base.py` 446-451): same
identity walk over `self.api_object.iot_relays.values()`. -/
def iotRelayEntityAvailable (mine : Ref PikIotRelay)
    (relays : List (Int × Ref PikIotRelay)) : Bool :=
  relays.any (fun p => pyIs p.2 mine)

/-- Embedding of `BasePikIotMeterEntity._update_attr` (`entity.py` 517-529): the
collection-membership availability check is commented out in the source
and the attribute is assigned the constant `True`, whatever the state of
the owning collection. -/
def meterEntityAttrAvailable (_mine : Ref PikIotMeter)
    (_meters : List (Int × Ref PikIotMeter)) : Bool :=
  true

/-- Presence of a record, by object identity, in an owning collection. -/
def presentByIdentity {α : Type} (mine : Ref α) (coll : List (Int × Ref α)) : Prop :=
  ∃ p ∈ coll, p.2.oid = mine.oid

/-! ## Theorems for availability (claim C6) -/

/-- C6 counterexample: an IoT meter entity whose record is absent from
the owning collection (here: the empty collection) still computes an
availability flag of `true`, so `available` is not equivalent to presence
by identity for meter entities. -/
theorem C6_counterexample :
    meterEntityAttrAvailable ⟨0, { id := 7 }⟩ [] = true
    ∧ ([] : List (Int × Ref PikIotMeter)).any (fun p => pyIs p.2 ⟨0, { id := 7 }⟩) = false :=
  ⟨rfl, rfl⟩

/-- C6 (amended): the property-intercom and IoT-relay entities of
`_base.py` compute `available` as presence of the exact record — compared
by object identity, not id — in the owning collection; the IoT meter
entity of `entity.py` instead has its availability check disabled and its
attribute is constantly true regardless of the collection. -/
theorem C6_availability (mine : Ref PikPropertyDevice)
    (devices : List (Int × Ref PikPropertyDevice))
    (rmine : Ref PikIotRelay) (relays : List (Int × Ref PikIotRelay))
    (mmine : Ref PikIotMeter) (meters : List (Int × Ref PikIotMeter)) :
    (propertyDeviceEntityAvailable mine devices = true ↔ presentByIdentity mine devices)
    ∧ (iotRelayEntityAvailable rmine relays = true ↔ presentByIdentity rmine relays)
    ∧ meterEntityAttrAvailable mmine meters = true := by
  refine ⟨?_, ?_, rfl⟩ <;>
    simp [propertyDeviceEntityAvailable, iotRelayEntityAvailable, presentByIdentity,
      pyIs, List.any_eq_true]

/-- Witness for the availability theorem at a concrete input: a property
intercom entity holding the record with object id 3 is available exactly
because that very object sits in the devices collection. -/
theorem C6_availability_witness :
    propertyDeviceEntityAvailable ⟨3, { id := 1 }⟩ [(1, ⟨3, { id := 1 }⟩)] = true :=
  (C6_availability ⟨3, { id := 1 }⟩ [(1, ⟨3, { id := 1 }⟩)]
      ⟨0, { id := 2 }⟩ [] ⟨0, { id := 3 }⟩ []).1.mpr
    ⟨(1, ⟨3, { id := 1 }⟩), by simp, rfl⟩

/-! ## Call-session pagination (`api.py` 814-896)

Timestamps (`datetime.fromisoformat(...)`) are modelled as integers: only
their total order matters.  The server is again the list of its non-empty
page responses, every page past the end being empty. -/

/-- Embedding of `PikCallSession` dataclass fields assigned by
`async_update_call_sessions` (`api.py` 1004-1023). -/
structure PikCallSession where
  id : Int
  intercom_id : Option Int := none
  intercom_name : Option String := none
  property_id : Option Int := none
  property_name : Option String := none
  notified_at : Int
  pickedup_at : Option Int := none
  finished_at : Option Int := none
  photo_url : Option String := none
deriving DecidableEq, Repr

/-- One element of a call-sessions page.  `id`, `notified_at`,
`geo_unit_id`, `geo_unit_short_name`, `intercom_id` and `intercom_name`
are accessed by direct indexing in the source; `finished_at`,
`pickedup_at` and `snapshot_url` through `.get`. -/
structure SessionData where
  id : Int
  notified_at : Int
  finished_at : Option Int := none
  pickedup_at : Option Int := none
  geo_unit_id : Option Int := none
  geo_unit_short_name : Option String := none
  intercom_id : Option Int := none
  intercom_name : Option String := none
  snapshot_url : Option String := none
deriving DecidableEq, Repr

/-- Embedding of `PikIntercomAPI.last_call_session` (`api.py` 814-827): the first
element of the cached sessions sorted by `notified_at` descending — i.e.
the first session attaining the maximal `notified_at` (the sort is
stable), or `None` when the cache is empty. -/
def last_call_session (cs : List (Int × PikCallSession)) : Option PikCallSession :=
  match cs with
  | [] => none
  | (_, s0) :: rest =>
    some (rest.foldl (fun best p => if p.2.notified_at > best.notified_at then p.2 else best) s0)

/-- Loop-carried state of `async_update_call_sessions`: the shared
`self._call_sessions` mapping, the `requires_further_updates` flag, and
the number of page requests issued. -/
structure CsState where
  call_sessions : List (Int × PikCallSession)
  rfu : Bool
  requests : Nat
deriving DecidableEq, Repr

/-- Body of the session loop (`api.py` 851-891): clear
`requires_further_updates` when the pre-loop cached last session's
`notified_at` is strictly greater than the fetched one, then upsert the
session record. -/
def processSession (last : Option PikCallSession) (st : CsState) (sd : SessionData) : CsState :=
  let trigger : Bool :=
    match last with
    | some l => decide (l.notified_at > sd.notified_at)
    | none => false
  let rfu := if st.rfu && trigger then false else st.rfu
  let s : PikCallSession :=
    { id := sd.id, property_id := sd.geo_unit_id,
      property_name := sd.geo_unit_short_name,
      intercom_id := sd.intercom_id, intercom_name := sd.intercom_name,
      notified_at := sd.notified_at, finished_at := sd.finished_at,
      pickedup_at := sd.pickedup_at, photo_url := sd.snapshot_url }
  { st with rfu := rfu, call_sessions := dupsert st.call_sessions sd.id s }

/-- Python loop guard
`requires_further_updates and (max_pages is None or page_number < max_pages)`. -/
def csLoopGuard (maxPages : Option Nat) (rfu : Bool) (page_number : Nat) : Bool :=
  rfu && (match maxPages with
          | none => true
          | some m => page_number < m)

/-- The `while` loop of `async_update_call_sessions` (`api.py` 836-893):
check the guard, fetch the next page (one request), break on an empty
page, otherwise process every session of the page and continue. -/
def callSessionsLoop (last : Option PikCallSession) (maxPages : Option Nat) :
    List (List SessionData) → Nat → CsState → CsState
  | pages, page_number, st =>
    if csLoopGuard maxPages st.rfu page_number then
      match pages with
      | [] => { st with requests := st.requests + 1 }
      | page :: rest =>
        let st := { st with requests := st.requests + 1 }
        if page.isEmpty then st
        else callSessionsLoop last maxPages rest (page_number + 1)
               (page.foldl (processSession last) st)
    else st

/-- Embedding of `PikIntercomAPI.async_update_call_sessions` (`api.py` 829-896) with
its default `max_pages = 10`: snapshot the cached last session, then run
the paging loop from page counter 0. -/
def async_update_call_sessions (pages : List (List SessionData))
    (cs : List (Int × PikCallSession)) (maxPages : Option Nat) : CsState :=
  callSessionsLoop (last_call_session cs) maxPages pages 0
    { call_sessions := cs, rfu := true, requests := 0 }

/-! ## Lemmas and theorems for the pagination watermark (claim C2) -/

/-- Processing one session never touches the request counter. -/
theorem processSession_requests (last : Option PikCallSession) (st : CsState)
    (sd : SessionData) : (processSession last st sd).requests = st.requests := rfl

/-- Processing a page never touches the request counter. -/
theorem foldl_processSession_requests (last : Option PikCallSession)
    (page : List SessionData) (st : CsState) :
    (page.foldl (processSession last) st).requests = st.requests := by
  induction page generalizing st with
  | nil => rfl
  | cons sd rest ih => rw [List.foldl_cons, ih, processSession_requests]

/-- Once `requires_further_updates` is cleared it stays cleared. -/
theorem processSession_rfu_false (last : Option PikCallSession) (st : CsState)
    (sd : SessionData) (h : st.rfu = false) :
    (processSession last st sd).rfu = false := by
  simp [processSession, h]

/-- Once cleared, `requires_further_updates` stays cleared over a page. -/
theorem foldl_processSession_rfu_false (last : Option PikCallSession)
    (page : List SessionData) (st : CsState) (h : st.rfu = false) :
    (page.foldl (processSession last) st).rfu = false := by
  induction page generalizing st with
  | nil => exact h
  | cons sd rest ih =>
      rw [List.foldl_cons]
      exact ih _ (processSession_rfu_false last st sd h)

/-- A page containing a session strictly older than the cached watermark
clears `requires_further_updates`. -/
theorem foldl_processSession_rfu_cleared (l : PikCallSession)
    (page : List SessionData) (st : CsState)
    (h : ∃ s ∈ page, s.notified_at < l.notified_at) :
    (page.foldl (processSession (some l)) st).rfu = false := by
  induction page generalizing st with
  | nil => simp at h
  | cons sd rest ih =>
      rw [List.foldl_cons]
      rcases h with ⟨s, hs, hlt⟩
      rcases List.mem_cons.mp hs with hhead | htail
      · subst hhead
        apply foldl_processSession_rfu_false
        by_cases hr : st.rfu = true
        · simp [processSession, hr, hlt]
        · exact processSession_rfu_false _ _ _ (Bool.eq_false_iff.mpr hr)
      · exact ih _ ⟨s, htail, hlt⟩

/-- With `requires_further_updates` cleared the loop performs no request
at all. -/
theorem callSessionsLoop_rfu_false (last : Option PikCallSession)
    (maxPages : Option Nat) (pages : List (List SessionData)) (pn : Nat)
    (st : CsState) (h : st.rfu = false) :
    callSessionsLoop last maxPages pages pn st = st := by
  cases pages <;> simp [callSessionsLoop, csLoopGuard, h]

/-- Concrete inputs for the watermark counterexample: the cached last
session has `notified_at = 5`; the first served page contains a session
with `notified_at = 5` (equal to the watermark, hence "not greater"); a
second page exists. -/
def exCachedSessions : List (Int × PikCallSession) :=
  [(10, { id := 10, notified_at := 5 })]

/-- First served call-sessions page. -/
def exPage1 : List SessionData := [{ id := 11, notified_at := 5 }]

/-- Served pages: the equal-watermark page followed by an older page. -/
def exPages : List (List SessionData) := [exPage1, [{ id := 12, notified_at := 4 }]]

/-- The concrete run of `async_update_call_sessions`. -/
def exCsRun : CsState := async_update_call_sessions exPages exCachedSessions (some 10)

/-- C2 counterexample: the cached watermark is T = 5 and the first page
contains a session with `notified_at = 5`, which is not greater than T;
the claim says no further pages are requested after that page, yet the
loop issues a second page request — the comparison
`last.notified_at > notified_at` only stops on strictly older sessions. -/
theorem C2_counterexample :
    (last_call_session exCachedSessions).map PikCallSession.notified_at = some 5
    ∧ exPage1.all (fun s => decide (s.notified_at ≤ 5)) = true
    ∧ exCsRun.requests = 2 :=
  ⟨rfl, rfl, rfl⟩

/-- C2 (amended): paging stops as soon as a fetched session's
`notified_at` is strictly less than the cached watermark: if the guard
lets the loop run, the next page is non-empty and contains such a
session, then exactly this one page request is issued and no further
pages are fetched.  A session with `notified_at` equal to the watermark
does not stop paging (see the counterexample). -/
theorem C2_strict_watermark (l : PikCallSession) (page : List SessionData)
    (rest : List (List SessionData)) (st : CsState) (pn : Nat) (mp : Option Nat)
    (hguard : csLoopGuard mp st.rfu pn = true)
    (hne : page.isEmpty = false)
    (hstop : ∃ s ∈ page, s.notified_at < l.notified_at) :
    (callSessionsLoop (some l) mp (page :: rest) pn st).requests = st.requests + 1 := by
  rw [callSessionsLoop, hguard]
  simp only [if_true, hne, Bool.false_eq_true, if_false]
  rw [callSessionsLoop_rfu_false _ _ _ _ _
    (foldl_processSession_rfu_cleared l page _ hstop)]
  rw [foldl_processSession_requests]

/-- Witness for the amended watermark theorem at a concrete input: a
cached watermark of 5, a first page containing a session notified at 3,
and a later page; exactly one request is made. -/
theorem C2_strict_watermark_witness :
    (callSessionsLoop (some { id := 10, notified_at := 5 }) (some 10)
        [[{ id := 11, notified_at := 3 }], [{ id := 12, notified_at := 99 }]] 0
        { call_sessions := [], rfu := true, requests := 0 }).requests = 0 + 1 :=
  C2_strict_watermark { id := 10, notified_at := 5 }
    [{ id := 11, notified_at := 3 }] [[{ id := 12, notified_at := 99 }]]
    { call_sessions := [], rfu := true, requests := 0 } 0 (some 10)
    rfl rfl ⟨{ id := 11, notified_at := 3 }, by decide, by decide⟩

/-! ## Entity reconciler (`entity.py` 600-652)

`async_add_entities_iteration` walks `zip(entity_classes, containers)`
(entity classes modelled as numeric tags), for each an outer loop over
`entity_descriptions or (None,)` and an inner loop over the container's
items: items failing `item_checker` are skipped, the registry key is
`(item_id, entity_description.key if entity_description else None)`, keys
already present are skipped, and otherwise exactly one wrapper is
constructed, stored in the registry dict and queued for
`async_add_entities`.  Nothing is ever removed from the registry. -/

/-- An `EntityDescription`, reduced to the `key` consulted by the
reconciler. -/
structure EntityDescriptionK where
  key : String
deriving DecidableEq, Repr

/-- Python `entity_descriptions or (None,)`: a missing or empty iterable
becomes the single pseudo-description `None`. -/
def descOptions (eds : Option (List EntityDescriptionK)) : List (Option EntityDescriptionK) :=
  match eds with
  | none => [none]
  | some [] => [none]
  | some l => l.map some

/-- The registry key `(item_id, entity_description.key if
entity_description else None)`. -/
def itemKey (item_id : Int) (ed : Option EntityDescriptionK) : Int × Option String :=
  (item_id, ed.map EntityDescriptionK.key)

/-- A created entity wrapper: its class tag, registry key and the device
record it was constructed over. -/
structure EntityWrapper (α : Type) where
  cls : Nat
  key : Int × Option String
  device : α
deriving DecidableEq, Repr

/-- The registry dict `coordinator.get_entities_dict(...)`, keyed by
`(item_id, description key)`. -/
abbrev EntityRegistry (α : Type) := List ((Int × Option String) × EntityWrapper α)

/-- Inner loop over one container's items for one description
(`entity.py` 627-644), threading the registry dict and the
`new_entities` list. -/
def addItems {α : Type} (cls : Nat) (ed : Option EntityDescriptionK)
    (item_checker : α → Bool) :
    List (Int × α) → EntityRegistry α × List (EntityWrapper α) →
    EntityRegistry α × List (EntityWrapper α)
  | [], acc => acc
  | (item_id, item) :: rest, (entities, new_entities) =>
    if item_checker item = false then
      addItems cls ed item_checker rest (entities, new_entities)
    else
      let key := itemKey item_id ed
      if (entities.lookup key).isSome then
        addItems cls ed item_checker rest (entities, new_entities)
      else
        addItems cls ed item_checker rest
          (entities ++ [(key, ⟨cls, key, item⟩)], new_entities ++ [⟨cls, key, item⟩])

/-- Outer description loop for one `(entity_class, container)` pair
(`entity.py` 626-644). -/
def addForContainer {α : Type} (item_checker : α → Bool)
    (eds : List (Option EntityDescriptionK)) (cls : Nat)
    (container : List (Int × α))
    (acc : EntityRegistry α × List (EntityWrapper α)) :
    EntityRegistry α × List (EntityWrapper α) :=
  eds.foldl (fun acc ed => addItems cls ed item_checker container acc) acc

/-- Embedding of `async_add_entities_iteration` (`entity.py` 600-652): fold over the
zipped `(entity_class, container)` pairs, returning the updated registry
dict and the list of wrappers handed to `async_add_entities`. -/
def async_add_entities_iteration {α : Type} (containers : List (Nat × List (Int × α)))
    (eds : Option (List EntityDescriptionK)) (item_checker : α → Bool)
    (entities : EntityRegistry α) :
    EntityRegistry α × List (EntityWrapper α) :=
  containers.foldl
    (fun acc c => addForContainer item_checker (descOptions eds) c.1 c.2 acc)
    (entities, [])

/-! ## Lemmas and theorems for the entity reconciler (claim C9) -/


theorem lookup_append {κ β : Type} [BEq κ] (l1 l2 : List (κ × β)) (k : κ) :
    (l1 ++ l2).lookup k = (l1.lookup k).or (l2.lookup k) := by
  induction l1 with
  | nil => simp [List.lookup]
  | cons p rest ih =>
      obtain ⟨k0, v0⟩ := p
      simp only [List.lookup, List.cons_append]
      cases hk : k == k0 with
      | true => simp [hk]
      | false => simp only [hk]; exact ih

theorem lookup_singleton_isSome {κ β : Type} [BEq κ] [LawfulBEq κ] (k0 k : κ) (v : β)
    (h : (([(k0, v)] : List (κ × β)).lookup k).isSome = true) : k0 = k := by
  by_cases hk : k == k0
  · exact (beq_iff_eq.mp hk).symm
  · simp [List.lookup, Bool.eq_false_iff.mpr hk] at h

theorem lookup_none_of_append {κ β : Type} [BEq κ] (l1 l2 : List (κ × β)) (k : κ)
    (h : (l1 ++ l2).lookup k = none) : l1.lookup k = none := by
  induction l1 with
  | nil => simp [List.lookup]
  | cons p rest ih =>
      obtain ⟨k0, v0⟩ := p
      simp only [List.lookup, List.cons_append] at h ⊢
      cases hk : k == k0 with
      | true => rw [hk] at h; simp at h
      | false => rw [hk] at h; simp only [hk]; exact ih h

theorem lookup_append_single {κ β : Type} [BEq κ] [LawfulBEq κ] (l : List (κ × β)) (k : κ) (v : β)
    (h : l.lookup k = none) : (l ++ [(k, v)]).lookup k = some v := by
  induction l with
  | nil => simp [List.lookup]
  | cons p rest ih =>
      obtain ⟨k0, v0⟩ := p
      simp only [List.lookup, List.cons_append] at h ⊢
      cases hk : k == k0 with
      | true => rw [hk] at h; simp at h
      | false => rw [hk] at h; simp only [hk]; exact ih h

/-- Invariant tying the initial registry, the current registry and the
wrappers created so far. -/
structure AddInv {α : Type} (entities0 ents : EntityRegistry α)
    (news : List (EntityWrapper α)) : Prop where
  ext : ∃ e, ents = entities0 ++ e
  present : ∀ w ∈ news, (ents.lookup w.key).isSome = true
  keysNodup : (news.map EntityWrapper.key).Nodup
  fresh : ∀ w ∈ news, entities0.lookup w.key = none
  covered : ∀ k, (ents.lookup k).isSome = true →
    (entities0.lookup k).isSome = true ∨ ∃ w ∈ news, w.key = k

theorem addInv_init {α : Type} (entities0 : EntityRegistry α) :
    AddInv entities0 entities0 [] := by
  refine ⟨⟨[], by simp⟩, by simp, by simp, by simp, ?_⟩
  intro k h
  exact Or.inl h

theorem addItems_ext {α : Type} (cls : Nat) (ed : Option EntityDescriptionK)
    (ch : α → Bool) (items : List (Int × α)) :
    ∀ acc : EntityRegistry α × List (EntityWrapper α),
      ∃ e, (addItems cls ed ch items acc).1 = acc.1 ++ e := by
  induction items with
  | nil => intro acc; exact ⟨[], by simp [addItems]⟩
  | cons p rest ih =>
      intro acc
      obtain ⟨id, item⟩ := p
      obtain ⟨ents, news⟩ := acc
      simp only [addItems]
      by_cases hch : ch item = false
      · simpa [hch] using ih (ents, news)
      · rw [Bool.not_eq_false] at hch
        simp only [hch, Bool.true_eq_false, if_false]
        by_cases hl : (ents.lookup (itemKey id ed)).isSome = true
        · simpa [hl] using ih (ents, news)
        · rw [Bool.not_eq_true] at hl
          simp only [hl, Bool.false_eq_true, if_false]
          obtain ⟨e, he⟩ := ih (ents ++ [(itemKey id ed, ⟨cls, itemKey id ed, item⟩)],
            news ++ [⟨cls, itemKey id ed, item⟩])
          exact ⟨[(itemKey id ed, ⟨cls, itemKey id ed, item⟩)] ++ e,
            by rw [he]; simp [List.append_assoc]⟩

theorem addItems_inv {α : Type} (entities0 : EntityRegistry α) (cls : Nat)
    (ed : Option EntityDescriptionK) (ch : α → Bool) (items : List (Int × α)) :
    ∀ ents news, AddInv entities0 ents news →
      AddInv entities0 (addItems cls ed ch items (ents, news)).1
        (addItems cls ed ch items (ents, news)).2 := by
  induction items with
  | nil => intro ents news h; simpa [addItems] using h
  | cons p rest ih =>
      intro ents news h
      obtain ⟨id, item⟩ := p
      simp only [addItems]
      by_cases hch : ch item = false
      · simpa [hch] using ih ents news h
      · rw [Bool.not_eq_false] at hch
        simp only [hch, Bool.true_eq_false, if_false]
        by_cases hl : (ents.lookup (itemKey id ed)).isSome = true
        · simpa [hl] using ih ents news h
        · rw [Bool.not_eq_true] at hl
          simp only [hl, Bool.false_eq_true, if_false]
          apply ih
          have hnone : ents.lookup (itemKey id ed) = none :=
            Option.not_isSome_iff_eq_none.mp (by simp [hl])
          obtain ⟨e0ext, he0⟩ := h.ext
          refine ⟨⟨e0ext ++ [(itemKey id ed, ⟨cls, itemKey id ed, item⟩)],
            by rw [he0, List.append_assoc]⟩, ?_, ?_, ?_, ?_⟩
          · intro w hw
            rcases List.mem_append.mp hw with hold | hnew
            · have := h.present w hold
              rw [lookup_append]
              rcases Option.isSome_iff_exists.mp this with ⟨v, hv⟩
              simp [hv]
            · have hweq : w = ⟨cls, itemKey id ed, item⟩ := by simpa using hnew
              subst hweq
              rw [lookup_append, hnone]
              simp [List.lookup]
          · rw [List.map_append, List.nodup_append]
            refine ⟨h.keysNodup, by simp, ?_⟩
            intro k hk1 hk2
            simp only [List.map_cons, List.map_nil, List.mem_singleton] at hk2
            subst hk2
            rcases List.mem_map.mp hk1 with ⟨w, hw, hkey⟩
            have := h.present w hw
            rw [hkey] at this
            rw [hnone] at this
            simp at this
          · intro w hw
            rcases List.mem_append.mp hw with hold | hnew
            · exact h.fresh w hold
            · have hweq : w = ⟨cls, itemKey id ed, item⟩ := by simpa using hnew
              subst hweq
              rw [he0] at hnone
              exact lookup_none_of_append _ _ _ hnone
          · intro k hk
            rw [lookup_append] at hk
            rcases hor : ents.lookup k with _ | v
            · rw [hor] at hk
              simp only [Option.none_or] at hk
              have := lookup_singleton_isSome _ _ _ hk
              exact Or.inr ⟨⟨cls, itemKey id ed, item⟩, by simp, this⟩
            · rcases h.covered k (by simp [hor]) with h1 | h2
              · exact Or.inl h1
              · rcases h2 with ⟨w, hw, hkey⟩
                exact Or.inr ⟨w, List.mem_append_left _ hw, hkey⟩


theorem addItems_mono {α : Type} (cls : Nat) (ed : Option EntityDescriptionK)
    (ch : α → Bool) (items : List (Int × α))
    (acc : EntityRegistry α × List (EntityWrapper α)) (k : Int × Option String)
    (h : (acc.1.lookup k).isSome = true) :
    ((addItems cls ed ch items acc).1.lookup k).isSome = true := by
  obtain ⟨e, he⟩ := addItems_ext cls ed ch items acc
  rw [he, lookup_append]
  rcases Option.isSome_iff_exists.mp h with ⟨v, hv⟩
  simp [hv]

theorem addItems_complete {α : Type} (cls : Nat) (ed : Option EntityDescriptionK)
    (ch : α → Bool) (items : List (Int × α)) :
    ∀ acc : EntityRegistry α × List (EntityWrapper α),
      ∀ id item, (id, item) ∈ items → ch item = true →
        (((addItems cls ed ch items acc).1).lookup (itemKey id ed)).isSome = true := by
  induction items with
  | nil => intro acc id item h; simp at h
  | cons p rest ih =>
      intro acc id item hmem hchi
      obtain ⟨id0, item0⟩ := p
      obtain ⟨ents, news⟩ := acc
      rcases List.mem_cons.mp hmem with hhead | htail
      · obtain ⟨h1, h2⟩ := Prod.mk.injEq .. ▸ hhead
        subst h1; subst h2
        simp only [addItems, hchi, Bool.true_eq_false, if_false]
        by_cases hl : (ents.lookup (itemKey id ed)).isSome = true
        · simp only [hl, if_true]
          exact addItems_mono cls ed ch rest (ents, news) _ hl
        · rw [Bool.not_eq_true] at hl
          simp only [hl, Bool.false_eq_true, if_false]
          apply addItems_mono
          have hs := lookup_append_single ents (itemKey id ed)
            (⟨cls, itemKey id ed, item⟩ : EntityWrapper α)
            (Option.not_isSome_iff_eq_none.mp (by simp [hl]))
          simp [hs]
      · simp only [addItems]
        by_cases hch : ch item0 = false
        · simp only [hch, if_pos]
          exact ih (ents, news) id item htail hchi
        · rw [Bool.not_eq_false] at hch
          simp only [hch, Bool.true_eq_false, if_false]
          by_cases hl : (ents.lookup (itemKey id0 ed)).isSome = true
          · simp only [hl, if_true]
            exact ih (ents, news) id item htail hchi
          · rw [Bool.not_eq_true] at hl
            simp only [hl, Bool.false_eq_true, if_false]
            exact ih _ id item htail hchi

theorem addItems_noop {α : Type} (cls : Nat) (ed : Option EntityDescriptionK)
    (ch : α → Bool) (items : List (Int × α)) :
    ∀ ents news,
      (∀ id item, (id, item) ∈ items → ch item = true →
        (ents.lookup (itemKey id ed)).isSome = true) →
      addItems cls ed ch items (ents, news) = (ents, news) := by
  induction items with
  | nil => intro ents news _; rfl
  | cons p rest ih =>
      intro ents news h
      obtain ⟨id0, item0⟩ := p
      simp only [addItems]
      by_cases hch : ch item0 = false
      · simp only [hch, if_pos]
        exact ih ents news
          (fun id item hm hc => h id item (List.mem_cons_of_mem _ hm) hc)
      · rw [Bool.not_eq_false] at hch
        simp only [hch, Bool.true_eq_false, if_false]
        have hl := h id0 item0 (List.mem_cons_self _ _) hch
        simp only [hl, if_true]
        exact ih ents news
          (fun id item hm hc => h id item (List.mem_cons_of_mem _ hm) hc)


theorem addForContainer_inv {α : Type} (entities0 : EntityRegistry α)
    (ch : α → Bool) (eds : List (Option EntityDescriptionK)) (cls : Nat)
    (cont : List (Int × α)) :
    ∀ ents news, AddInv entities0 ents news →
      AddInv entities0 (addForContainer ch eds cls cont (ents, news)).1
        (addForContainer ch eds cls cont (ents, news)).2 := by
  induction eds with
  | nil => intro ents news h; simpa [addForContainer] using h
  | cons ed rest ih =>
      intro ents news h
      simp only [addForContainer, List.foldl_cons]
      have h1 := addItems_inv entities0 cls ed ch cont ents news h
      have := ih (addItems cls ed ch cont (ents, news)).1
        (addItems cls ed ch cont (ents, news)).2 h1
      simpa [addForContainer] using this

theorem addForContainer_mono {α : Type} (ch : α → Bool)
    (eds : List (Option EntityDescriptionK)) (cls : Nat) (cont : List (Int × α)) :
    ∀ acc : EntityRegistry α × List (EntityWrapper α), ∀ k,
      (acc.1.lookup k).isSome = true →
      ((addForContainer ch eds cls cont acc).1.lookup k).isSome = true := by
  induction eds with
  | nil => intro acc k h; simpa [addForContainer] using h
  | cons ed rest ih =>
      intro acc k h
      simp only [addForContainer, List.foldl_cons]
      have h1 := addItems_mono cls ed ch cont acc k h
      simpa [addForContainer] using ih (addItems cls ed ch cont acc) k h1

theorem addForContainer_complete {α : Type} (ch : α → Bool)
    (eds : List (Option EntityDescriptionK)) (cls : Nat) (cont : List (Int × α)) :
    ∀ acc : EntityRegistry α × List (EntityWrapper α),
      ∀ ed ∈ eds, ∀ id item, (id, item) ∈ cont → ch item = true →
        ((addForContainer ch eds cls cont acc).1.lookup (itemKey id ed)).isSome = true := by
  induction eds with
  | nil => intro acc ed hed; simp at hed
  | cons ed0 rest ih =>
      intro acc ed hed id item hmem hchi
      simp only [addForContainer, List.foldl_cons]
      rcases List.mem_cons.mp hed with hhead | htail
      · subst hhead
        have h1 := addItems_complete cls ed ch cont acc id item hmem hchi
        have := addForContainer_mono ch rest cls cont
          (addItems cls ed ch cont acc) (itemKey id ed) h1
        simpa [addForContainer] using this
      · have := ih (addItems cls ed0 ch cont acc) ed htail id item hmem hchi
        simpa [addForContainer] using this

theorem addForContainer_noop {α : Type} (ch : α → Bool)
    (eds : List (Option EntityDescriptionK)) (cls : Nat) (cont : List (Int × α)) :
    ∀ ents news,
      (∀ ed ∈ eds, ∀ id item, (id, item) ∈ cont → ch item = true →
        (ents.lookup (itemKey id ed)).isSome = true) →
      addForContainer ch eds cls cont (ents, news) = (ents, news) := by
  induction eds with
  | nil => intro ents news _; rfl
  | cons ed0 rest ih =>
      intro ents news h
      simp only [addForContainer, List.foldl_cons]
      rw [addItems_noop cls ed0 ch cont ents news
        (fun id item hm hc => h ed0 (List.mem_cons_self _ _) id item hm hc)]
      exact ih ents news
        (fun ed hed id item hm hc => h ed (List.mem_cons_of_mem _ hed) id item hm hc)

theorem iteration_foldl_inv {α : Type} (entities0 : EntityRegistry α)
    (ch : α → Bool) (eds : List (Option EntityDescriptionK))
    (containers : List (Nat × List (Int × α))) :
    ∀ ents news, AddInv entities0 ents news →
      AddInv entities0
        (containers.foldl (fun acc c => addForContainer ch eds c.1 c.2 acc) (ents, news)).1
        (containers.foldl (fun acc c => addForContainer ch eds c.1 c.2 acc) (ents, news)).2 := by
  induction containers with
  | nil => intro ents news h; simpa using h
  | cons c rest ih =>
      intro ents news h
      simp only [List.foldl_cons]
      have h1 := addForContainer_inv entities0 ch eds c.1 c.2 ents news h
      have := ih (addForContainer ch eds c.1 c.2 (ents, news)).1
        (addForContainer ch eds c.1 c.2 (ents, news)).2 h1
      simpa using this

theorem iteration_foldl_mono {α : Type} (ch : α → Bool)
    (eds : List (Option EntityDescriptionK))
    (containers : List (Nat × List (Int × α))) :
    ∀ acc : EntityRegistry α × List (EntityWrapper α), ∀ k,
      (acc.1.lookup k).isSome = true →
      ((containers.foldl (fun acc c => addForContainer ch eds c.1 c.2 acc) acc).1.lookup k).isSome
        = true := by
  induction containers with
  | nil => intro acc k h; simpa using h
  | cons c rest ih =>
      intro acc k h
      simp only [List.foldl_cons]
      exact ih (addForContainer ch eds c.1 c.2 acc) k
        (addForContainer_mono ch eds c.1 c.2 acc k h)

theorem iteration_foldl_complete {α : Type} (ch : α → Bool)
    (eds : List (Option EntityDescriptionK))
    (containers : List (Nat × List (Int × α))) :
    ∀ acc : EntityRegistry α × List (EntityWrapper α),
      ∀ cls cont, (cls, cont) ∈ containers → ∀ ed ∈ eds,
        ∀ id item, (id, item) ∈ cont → ch item = true →
          ((containers.foldl (fun acc c => addForContainer ch eds c.1 c.2 acc) acc).1.lookup
            (itemKey id ed)).isSome = true := by
  induction containers with
  | nil => intro acc cls cont h; simp at h
  | cons c rest ih =>
      intro acc cls cont hmemc ed hed id item hmem hchi
      simp only [List.foldl_cons]
      rcases List.mem_cons.mp hmemc with hhead | htail
      · subst hhead
        have h1 := addForContainer_complete ch eds cls cont acc ed hed id item hmem hchi
        exact iteration_foldl_mono ch eds rest
          (addForContainer ch eds cls cont acc) (itemKey id ed) h1
      · exact ih (addForContainer ch eds c.1 c.2 acc) cls cont htail ed hed id item hmem hchi

theorem iteration_foldl_noop {α : Type} (ch : α → Bool)
    (eds : List (Option EntityDescriptionK))
    (containers : List (Nat × List (Int × α))) :
    ∀ ents : EntityRegistry α,
      (∀ cls cont, (cls, cont) ∈ containers → ∀ ed ∈ eds,
        ∀ id item, (id, item) ∈ cont → ch item = true →
          (ents.lookup (itemKey id ed)).isSome = true) →
      containers.foldl (fun acc c => addForContainer ch eds c.1 c.2 acc) (ents, []) = (ents, []) := by
  induction containers with
  | nil => intro ents _; rfl
  | cons c rest ih =>
      intro ents h
      simp only [List.foldl_cons]
      rw [addForContainer_noop ch eds c.1 c.2 ents []
        (fun ed hed id item hm hc => h c.1 c.2 (by simp) ed hed id item hm hc)]
      exact ih ents
        (fun cls cont hmc ed hed id item hm hc =>
          h cls cont (List.mem_cons_of_mem _ hmc) ed hed id item hm hc)


/-- C9: `async_add_entities_iteration` (i) never removes or changes an
existing registry entry, (ii) the wrappers created in one invocation have
pairwise distinct `(device id, description key)` registry keys, (iii)
each created wrapper's key was not previously registered, (iv) every
iterated `(device id, description key)` combination passing the item
checker ends up registered, (v) any key registered afterwards was either
registered before or belongs to a wrapper created now — together: exactly
one wrapper per new combination — and (vi) re-invoking on the resulting
registry with the same inputs creates no wrappers and leaves the registry
unchanged (idempotence on no new combinations). -/
theorem C9_reconciler {α : Type} (containers : List (Nat × List (Int × α)))
    (eds : Option (List EntityDescriptionK)) (ch : α → Bool)
    (entities : EntityRegistry α) :
    (∀ k v, entities.lookup k = some v →
      (async_add_entities_iteration containers eds ch entities).1.lookup k = some v)
    ∧ ((async_add_entities_iteration containers eds ch entities).2.map EntityWrapper.key).Nodup
    ∧ (∀ w ∈ (async_add_entities_iteration containers eds ch entities).2,
        entities.lookup w.key = none)
    ∧ (∀ cls cont, (cls, cont) ∈ containers → ∀ ed ∈ descOptions eds,
        ∀ id item, (id, item) ∈ cont → ch item = true →
          ((async_add_entities_iteration containers eds ch entities).1.lookup
            (itemKey id ed)).isSome = true)
    ∧ (∀ k, ((async_add_entities_iteration containers eds ch entities).1.lookup k).isSome
          = true →
        (entities.lookup k).isSome = true
        ∨ ∃ w ∈ (async_add_entities_iteration containers eds ch entities).2, w.key = k)
    ∧ async_add_entities_iteration containers eds ch
        (async_add_entities_iteration containers eds ch entities).1
      = ((async_add_entities_iteration containers eds ch entities).1, []) := by
  have hinv := iteration_foldl_inv entities ch (descOptions eds) containers entities []
    (addInv_init entities)
  have hcomp := iteration_foldl_complete ch (descOptions eds) containers
    ((entities, []) : EntityRegistry α × List (EntityWrapper α))
  refine ⟨?_, hinv.keysNodup, hinv.fresh, ?_, hinv.covered, ?_⟩
  · intro k v hv
    obtain ⟨e, he⟩ := hinv.ext
    show (List.foldl _ (entities, []) containers).1.lookup k = some v
    rw [he, lookup_append, hv]
    rfl
  · intro cls cont hmc ed hed id item hm hc
    exact hcomp cls cont hmc ed hed id item hm hc
  · show List.foldl _ ((async_add_entities_iteration containers eds ch entities).1, [])
        containers = _
    exact iteration_foldl_noop ch (descOptions eds) containers
      (async_add_entities_iteration containers eds ch entities).1
      (fun cls cont hmc ed hed id item hm hc => hcomp cls cont hmc ed hed id item hm hc)

/-- Witness for the reconciler theorem at a concrete input: one container
of class tag 0 holding device id 1, no entity descriptions, a registry
already holding key (5, none).  The old entry survives and the new
combination (1, none) is registered. -/
theorem C9_reconciler_witness :
    (async_add_entities_iteration [(0, [((1 : Int), ())])] none (fun _ => true)
        [((5, none), ⟨0, (5, none), ()⟩)]).1.lookup (5, none)
      = some ⟨0, (5, none), ()⟩
    ∧ ((async_add_entities_iteration [(0, [((1 : Int), ())])] none (fun _ => true)
        [((5, none), ⟨0, (5, none), ()⟩)]).1.lookup (itemKey 1 none)).isSome = true :=
  ⟨(C9_reconciler [(0, [((1 : Int), ())])] none (fun _ => true)
      [((5, none), ⟨0, (5, none), ()⟩)]).1 (5, none) ⟨0, (5, none), ()⟩ rfl,
   (C9_reconciler [(0, [((1 : Int), ())])] none (fun _ => true)
      [((5, none), ⟨0, (5, none), ()⟩)]).2.2.2.1 0 [((1 : Int), ())] (by simp)
      none (by simp [descOptions]) 1 () (by simp) rfl⟩

end PikSpec
